import Mathlib

/-!
Verification of the `top_traders_tool` graph pipeline.

The development shallowly embeds the pure content of
`graph.py:plot_trader_bubblemap` (row filtering, per-address volume
aggregation, graph assembly, size/color encoding, output-path resolution)
and the chain guard of `queries.py:get_evm_traders_and_connections`,
and proves the specified properties about them.
-/

set_option autoImplicit false

namespace TopTraders

/-- A cell of the `total_usd_traded` column: the warehouse normally delivers
a number, but the column may also carry a formatted string such as
`"1,234.5"`. -/
inductive Val where
  | num (q : ℚ)
  | str (s : String)
  deriving DecidableEq, Repr

/-- Numeric reading of a `total_usd_traded` cell, as used by the pandas
aggregation path (graph.py lines 49-51); the query layer emits this column
through `TO_NUMBER`, so string cells do not occur on that path and read
as 0 here. -/
def Val.asNum : Val → ℚ
  | .num q => q
  | .str _ => 0

/-- One record of the query result consumed by `plot_trader_bubblemap`
(graph.py): only the columns the function reads are modelled; a missing
(NaN/NULL) address cell is `none`. -/
structure Row where
  type : String
  address : Option String
  target_address : Option String
  total_usd_traded : Val
  deriving DecidableEq, Repr

/-- Value of a run of decimal digit characters. -/
def digitsVal (ds : List Char) : ℕ :=
  ds.foldl (fun a c => a * 10 + (c.toNat - 48)) 0

/-- The syntactic content of a Python decimal float literal. -/
structure FloatParts where
  negative : Bool
  intPart : ℕ
  fracPart : ℕ
  fracLen : ℕ
  expNeg : Bool
  expVal : ℕ
  deriving DecidableEq, Repr

/-- Character-level parse of a Python `float` decimal literal: optional
surrounding whitespace, optional sign, digits with an optional fractional
part and an optional exponent; `none` models `ValueError`.  (The special
forms `inf`/`nan` and digit-group underscores never occur in this data.) -/
def pyFloatParts? (s : String) : Option FloatParts :=
  let l := ((s.data.dropWhile Char.isWhitespace).reverse.dropWhile
    Char.isWhitespace).reverse
  let (neg, l) : Bool × List Char :=
    match l with
    | '-' :: r => (true, r)
    | '+' :: r => (false, r)
    | _ => (false, l)
  let ip := l.takeWhile Char.isDigit
  let l := l.dropWhile Char.isDigit
  let (fp, l) : List Char × List Char :=
    match l with
    | '.' :: r => (r.takeWhile Char.isDigit, r.dropWhile Char.isDigit)
    | _ => ([], l)
  if ip.isEmpty && fp.isEmpty then none
  else
    match l with
    | [] => some ⟨neg, digitsVal ip, digitsVal fp, fp.length, false, 0⟩
    | e :: r =>
      if e = 'e' || e = 'E' then
        let (eneg, r) : Bool × List Char :=
          match r with
          | '-' :: t => (true, t)
          | '+' :: t => (false, t)
          | _ => (false, r)
        let ed := r.takeWhile Char.isDigit
        let r := r.dropWhile Char.isDigit
        if ed.isEmpty || !r.isEmpty then none
        else some ⟨neg, digitsVal ip, digitsVal fp, fp.length, eneg, digitsVal ed⟩
      else none

/-- Numeric value of a parsed float literal. -/
def FloatParts.value (p : FloatParts) : ℚ :=
  let m : ℚ := (p.intPart : ℚ) + (p.fracPart : ℚ) / (10 : ℚ) ^ p.fracLen
  let m := if p.negative then -m else m
  if p.expNeg then m / (10 : ℚ) ^ p.expVal else m * (10 : ℚ) ^ p.expVal

/-- Models Python `float(s)` on decimal literals. -/
def pyFloat? (s : String) : Option ℚ :=
  (pyFloatParts? s).map FloatParts.value

/-- `str(x).replace(',', '')` on a string cell: removing every comma. -/
def stripCommas (s : String) : String := ⟨s.data.filter (· != ',')⟩

/-- `float(str(row['total_usd_traded']).replace(',', ''))` with the
`except: weight = 1` fallback (graph.py lines 68-71).  For a numeric cell,
`str` prints the float and `float` reads it back: the identity on the
value. -/
def parseWeight : Val → ℚ
  | .num q => q
  | .str s => (pyFloat? (stripCommas s)).getD 1

/-- `df.dropna(subset=['address', 'target_address'])` (graph.py line 45). -/
def dropna (rows : List Row) : List Row :=
  rows.filter (fun r => r.address.isSome && r.target_address.isSome)

/-- Sum of the `total_usd_traded` column over a list of rows. -/
def sumUsd (rs : List Row) : ℚ :=
  rs.foldl (fun a r => a + r.total_usd_traded.asNum) 0

/-- `df.groupby('address')['total_usd_traded'].sum()` read at key `a`:
`some` exactly when the key occurs in the column (graph.py line 49). -/
def volume_from (df : List Row) (a : String) : Option ℚ :=
  let g := df.filter (fun r => r.address = some a)
  if g.isEmpty then none else some (sumUsd g)

/-- `df.groupby('target_address')['total_usd_traded'].sum()` read at key `a`
(graph.py line 50). -/
def volume_to (df : List Row) (a : String) : Option ℚ :=
  let g := df.filter (fun r => r.target_address = some a)
  if g.isEmpty then none else some (sumUsd g)

/-- `volume_from.add(volume_to, fill_value=0).to_dict()` read at key `a`
(graph.py line 51): present when the key appears on either side. -/
def total_volume (df : List Row) (a : String) : Option ℚ :=
  match volume_from df a, volume_to df a with
  | none, none => none
  | f, t => some (f.getD 0 + t.getD 0)

/-- `total_volume.get(node, 0)`. -/
def volGet (df : List Row) (a : String) : ℚ := (total_volume df a).getD 0

/-- Helper for `uniqueFirst`: keeps elements not seen before. -/
def uniqueFirstAux {α : Type} [DecidableEq α] (seen : List α) : List α → List α
  | [] => []
  | a :: l => if a ∈ seen then uniqueFirstAux seen l
              else a :: uniqueFirstAux (a :: seen) l

/-- `pd.unique`: deduplication keeping the first occurrence of each value. -/
def uniqueFirst {α : Type} [DecidableEq α] (l : List α) : List α :=
  uniqueFirstAux [] l

/-- `pd.unique(df[['address', 'target_address']].values.ravel())` followed
by the `pd.notna` filter (graph.py lines 57-58): first-occurrence-unique
values of both address columns in row-major order, then the non-null
ones. -/
def nodesOf (df : List Row) : List String :=
  (uniqueFirst (df.flatMap (fun r => [r.address, r.target_address]))).filterMap id

/-- The `networkx.Graph` content built by `plot_trader_bubblemap`:
insertion-ordered node list and, per unordered address pair, one weighted
edge stored in first-insertion orientation. -/
structure Graph where
  nodes : List String
  edges : List (String × String × ℚ)
  deriving DecidableEq, Repr

/-- `G.add_node(a)`: appends the node unless it is already present. -/
def addNode (g : Graph) (a : String) : Graph :=
  if a ∈ g.nodes then g else { g with nodes := g.nodes ++ [a] }

/-- Whether the endpoint keys `(a, b)` and `(u, v)` denote the same
undirected edge. -/
def sameEdge (a b u v : String) : Bool :=
  (a == u && b == v) || (a == v && b == u)

/-- Replace the weight of the first stored edge between `u` and `v`,
keeping its stored orientation, or append a fresh edge: the `networkx`
attribute update performed by `add_edge` on an existing pair. -/
def setWeight : List (String × String × ℚ) → String → String → ℚ →
    List (String × String × ℚ)
  | [], u, v, w => [(u, v, w)]
  | e :: es, u, v, w =>
    if sameEdge e.1 e.2.1 u v then (e.1, e.2.1, w) :: es
    else e :: setWeight es u v w

/-- `G.add_edge(u, v, weight=w)`: ensures both endpoints are nodes and
overwrites the weight of an existing edge between them. -/
def addEdge (g : Graph) (u v : String) (w : ℚ) : Graph :=
  let g := addNode (addNode g u) v
  { g with edges := setWeight g.edges u v w }

/-- One iteration of the edge loop (graph.py lines 64-73). -/
def addRowEdge (g : Graph) (r : Row) : Graph :=
  match r.address, r.target_address with
  | some u, some v => addEdge g u v (parseWeight r.total_usd_traded)
  | _, _ => g

/-- Graph assembly (graph.py lines 54-73) on the retained frame: all nodes
first, then one `add_edge` per row. -/
def buildGraph (df : List Row) : Graph :=
  let g := (nodesOf df).foldl addNode { nodes := [], edges := [] }
  df.foldl addRowEdge g

def min_size : ℚ := 10

def max_size : ℚ := 50

/-- Python `min` over a list (0 for the empty case, never read). -/
def listMin : List ℚ → ℚ
  | [] => 0
  | v :: vs => vs.foldl min v

/-- Python `max` over a list (0 for the empty case, never read). -/
def listMax : List ℚ → ℚ
  | [] => 0
  | v :: vs => vs.foldl max v

/-- `volumes = [total_volume.get(node, 0) for node in G.nodes()]`
(graph.py line 79). -/
def volumesOf (df : List Row) : List ℚ :=
  (buildGraph df).nodes.map (volGet df)

/-- `volume_range = max_volume - min_volume if max_volume != min_volume
else 1` (graph.py line 83). -/
def volumeRange (df : List Row) : ℚ :=
  if listMax (volumesOf df) ≠ listMin (volumesOf df)
  then listMax (volumesOf df) - listMin (volumesOf df) else 1

/-- The per-node size expression (graph.py line 89). -/
def nodeSize (df : List Row) (n : String) : ℚ :=
  min_size + (max_size - min_size) * (volGet df n - listMin (volumesOf df)) /
    volumeRange df

/-- `sizes` (graph.py lines 88-91, default branch line 97). -/
def sizesOf (df : List Row) : List ℚ :=
  if (volumesOf df).isEmpty then (buildGraph df).nodes.map (fun _ => 10)
  else (buildGraph df).nodes.map (nodeSize df)

/-- Stable insertion into an ascending list. -/
def insertSorted (x : ℚ) : List ℚ → List ℚ
  | [] => [x]
  | y :: ys => if x ≤ y then x :: y :: ys else y :: insertSorted x ys

/-- Ascending sort (insertion sort; `median` only reads middle values). -/
def sortAsc (l : List ℚ) : List ℚ := l.foldr insertSorted []

/-- `pd.Series(l).median()`: the middle element of the sorted list, or the
mean of the two middle elements at even length (0 for the empty series,
only read when nonempty). -/
def median (l : List ℚ) : ℚ :=
  let s := sortAsc l
  if s.length = 0 then 0
  else if s.length % 2 = 1 then s.getD (s.length / 2) 0
  else (s.getD (s.length / 2 - 1) 0 + s.getD (s.length / 2) 0) / 2

def high_color : String := "#FF4500"

def low_color : String := "#1E90FF"

/-- `threshold = pd.Series(volumes).median()` (graph.py line 94). -/
def thresholdOf (df : List Row) : ℚ := median (volumesOf df)

/-- The per-node color expression (graph.py line 95). -/
def nodeColor (df : List Row) (n : String) : String :=
  if volGet df n ≥ thresholdOf df then high_color else low_color

/-- `colors` (graph.py lines 95, default branch line 98). -/
def colorsOf (df : List Row) : List String :=
  if (volumesOf df).isEmpty then (buildGraph df).nodes.map (fun _ => low_color)
  else (buildGraph df).nodes.map (nodeColor df)

/-- `os.path.join(a, b)` for one join step: an absolute second component
discards the first; otherwise the parts are joined with exactly one
separator. -/
def pathJoin (a b : String) : String :=
  if b.startsWith "/" then b
  else if a = "" || a.endsWith "/" then a ++ b
  else a ++ "/" ++ b

/-- The output-path computation (graph.py lines 110-115): `base_dir` is
tested for Python truthiness, so `None` and the empty string both leave the
filename alone. -/
def resolveOutputPath (output_html : String) (base_dir : Option String) : String :=
  match base_dir with
  | some d => if d.isEmpty then output_html else pathJoin d output_html
  | none => output_html

/-- The default of the `output_html` parameter (graph.py line 6). -/
def defaultOutputHtml : String := "bubblemap.html"

/-- The pure content of one `plot_trader_bubblemap` call: the graph handed
to the renderer, the parallel per-node size and color lists, and the
returned path.  (Writing the HTML file and creating `base_dir` are renderer
and filesystem effects outside the embedding.) -/
structure PlotResult where
  graph : Graph
  sizes : List ℚ
  colors : List String
  output_path : String
  deriving DecidableEq, Repr

/-- `plot_trader_bubblemap(df, output_html, base_dir)` (graph.py): drop rows
with a missing address cell, aggregate volumes, build the graph, scale
sizes, threshold colors, resolve the output path and return it. -/
def plot_trader_bubblemap (rows : List Row)
    (output_html : String := defaultOutputHtml)
    (base_dir : Option String := none) : PlotResult :=
  let df := dropna rows
  { graph := buildGraph df
    sizes := sizesOf df
    colors := colorsOf df
    output_path := resolveOutputPath output_html base_dir }

/-- `valid_chains` (queries.py line 26). -/
def valid_chains : List String :=
  ["ethereum", "base", "arbitrum", "optimism", "avalanche", "bsc", "polygon"]

/-- Python `str.lower()` on ASCII input: lowercase every character. -/
def pyLower (s : String) : String := ⟨s.data.map Char.toLower⟩

/-- The SQL text assembled by `get_evm_traders_and_connections`
(queries.py lines 32-145); substitution points become concatenation. -/
def evm_query_text (chain contract_address start_date end_date : String)
    (min_usd_amount max_usd_amount : ℚ) (min_active_days limit : ℕ) : String :=
  "
    WITH swap_transactions AS (
        SELECT
            block_timestamp,
            tx_hash,
            sender as trader,
            COALESCE(amount_in_usd, 0) + COALESCE(amount_out_usd, 0) as amount_usd,
            CASE
                WHEN token_in = LOWER(TRIM(\x27" ++ contract_address ++ "\x27)) THEN amount_in
                WHEN token_out = LOWER(TRIM(\x27" ++ contract_address ++ "\x27)) THEN amount_out
            END as token_amount
        FROM " ++ chain ++ ".defi.ez_dex_swaps
        WHERE (token_in = LOWER(TRIM(\x27" ++ contract_address ++ "\x27)) OR token_out = LOWER(TRIM(\x27" ++ contract_address ++ "\x27)))
            AND block_timestamp >= \x27" ++ start_date ++ "\x27
            AND block_timestamp < DATEADD(day, 1, \x27" ++ end_date ++ "\x27)::date
            AND COALESCE(amount_in_usd, 0) + COALESCE(amount_out_usd, 0) >= " ++ toString min_usd_amount ++ "
            AND COALESCE(amount_in_usd, 0) + COALESCE(amount_out_usd, 0) <= " ++ toString max_usd_amount ++ "
    ),

    filtered_traders AS (
        SELECT DISTINCT
            trader as address
        FROM swap_transactions
        WHERE trader NOT IN (
            SELECT address
            FROM " ++ chain ++ ".core.dim_labels
            WHERE label_type IN (
                \x27cex\x27, \x27dex\x27, \x27defi\x27, \x27bridge\x27, \x27contract\x27, \x27treasury\x27, \x27infrastructure\x27
            )
            OR label_subtype IN (
                \x27pool\x27, \x27router\x27, \x27exchange\x27, \x27mev_bot\x27, \x27flash_loan\x27, \x27vault\x27,
                \x27wrapper\x27, \x27burn_address\x27, \x27null_address\x27
            )
            OR LOWER(address_name) LIKE ANY (
                \x27%pool%\x27, \x27%bot%\x27, \x27%mev%\x27, \x27%vault%\x27, \x27%treasury%\x27,
                \x27%wrapper%\x27, \x27%flash%loan%\x27, \x27%token%account%\x27, \x27%amm%\x27
            )
            LIMIT 1000
        )
    ),

    trading_patterns AS (
        SELECT
            trader as address,
            COUNT(DISTINCT DATE_TRUNC(\x27day\x27, block_timestamp)) as active_days,
            COUNT(DISTINCT tx_hash) as total_trades,
            COUNT(DISTINCT tx_hash)::FLOAT / COUNT(DISTINCT DATE_TRUNC(\x27day\x27, block_timestamp)) as avg_daily_trades,
            SUM(amount_usd) as total_volume
        FROM swap_transactions
        WHERE trader IN (SELECT address FROM filtered_traders)
        GROUP BY trader
        HAVING
            COUNT(DISTINCT DATE_TRUNC(\x27day\x27, block_timestamp)) >= " ++ toString min_active_days ++ "
            AND COUNT(DISTINCT tx_hash) >= 5
    ),

    top_traders AS (
        SELECT
            s.trader as address,
            COUNT(DISTINCT s.tx_hash) as trade_count,
            SUM(ABS(s.token_amount)) as total_tokens_traded,
            SUM(s.amount_usd) as total_usd_traded,
            tp.active_days,
            tp.avg_daily_trades
        FROM swap_transactions s
        JOIN trading_patterns tp ON s.trader = tp.address
        WHERE s.trader IN (SELECT address FROM filtered_traders)
        GROUP BY s.trader, tp.active_days, tp.avg_daily_trades
        HAVING total_usd_traded > 0
        QUALIFY ROW_NUMBER() OVER (ORDER BY total_usd_traded DESC) <= " ++ toString limit ++ "
    ),

    connections AS (
        SELECT
            s1.trader as source,
            s2.trader as target,
            COUNT(DISTINCT s1.tx_hash) as transaction_count,
            SUM(ABS(s1.token_amount)) as total_tokens,
            SUM(s1.amount_usd) as total_value
        FROM swap_transactions s1
        JOIN swap_transactions s2
            ON s1.tx_hash = s2.tx_hash
            AND s1.trader < s2.trader
        WHERE s1.trader IN (SELECT address FROM top_traders)
            AND s2.trader IN (SELECT address FROM top_traders)
        GROUP BY s1.trader, s2.trader
        HAVING total_value > 0
    )

    SELECT
        \x27node\x27 as type,
        address,
        NULL as target_address,
        TO_NUMBER(trade_count) as trade_count,
        TO_NUMBER(total_tokens_traded) as total_tokens_traded,
        TO_NUMBER(total_usd_traded) as total_usd_traded,
        TO_NUMBER(active_days) as active_days,
        TO_NUMBER(ROUND(avg_daily_trades, 2)) as avg_daily_trades
    FROM top_traders

    UNION ALL

    SELECT
        \x27edge\x27 as type,
        source as address,
        target as target_address,
        TO_NUMBER(transaction_count) as trade_count,
        TO_NUMBER(total_tokens) as total_tokens_traded,
        TO_NUMBER(total_value) as total_usd_traded,
        NULL as active_days,
        NULL as avg_daily_trades
    FROM connections
    ORDER BY type, total_usd_traded DESC;
    "

/-- `get_evm_traders_and_connections` (queries.py lines 3-146): lowercase
the chain, reject it unless it is a supported EVM chain (`ValueError`
modelled as `Except.error`), otherwise return the assembled query text. -/
def get_evm_traders_and_connections
    (chain contract_address start_date end_date : String)
    (min_usd_amount : ℚ := 1) (max_usd_amount : ℚ := 100000000)
    (min_active_days : ℕ := 3) (limit : ℕ := 200) : Except String String :=
  let chain := pyLower chain
  if chain ∉ valid_chains then
    .error ("Chain must be one of " ++ toString valid_chains)
  else
    .ok (evm_query_text chain contract_address start_date end_date
      min_usd_amount max_usd_amount min_active_days limit)

/-- Whether a row (with both address cells present) carries the unordered
pair `(u, v)`. -/
def carriesPair (r : Row) (u v : String) : Bool :=
  match r.address, r.target_address with
  | some a, some b => sameEdge a b u v
  | _, _ => false

/-- The stored edges of `g` between `u` and `v`. -/
def matchEdges (g : Graph) (u v : String) : List (String × String × ℚ) :=
  g.edges.filter (fun e => sameEdge e.1 e.2.1 u v)

/-- The spec's worked example: two edge rows over addresses 0xA, 0xB, 0xC. -/
def exRows : List Row :=
  [⟨"edge", some "0xA", some "0xB", .num 100⟩,
   ⟨"edge", some "0xB", some "0xC", .num 300⟩]

/-- A frame holding a single node row (null `target_address`). -/
def nodeOnlyRows : List Row := [⟨"node", some "0xA", none, .num 100⟩]

/-- First of two rows carrying the unordered pair (0xA, 0xB). -/
def dupRowA : Row := ⟨"edge", some "0xA", some "0xB", .num 100⟩

/-- Second row carrying the pair (0xA, 0xB), in reversed orientation. -/
def dupRowB : Row := ⟨"edge", some "0xB", some "0xA", .num 250⟩

/-- A frame with two rows carrying the same unordered pair. -/
def dupRows : List Row := [dupRowA, dupRowB]

/-- A row whose `address` equals its `target_address`. -/
def selfRow : Row := ⟨"edge", some "0xA", some "0xA", .num 7⟩

/-- A frame holding one self-loop row. -/
def selfRows : List Row := [selfRow]

theorem sumUsd_nil : sumUsd [] = 0 := rfl

/-- The aggregated dictionary read at any key equals the two direct column
sums (`fill_value=0` supplies the missing side). -/
theorem volGet_eq_sums (df : List Row) (a : String) :
    volGet df a =
      sumUsd (df.filter (fun r => r.address = some a)) +
      sumUsd (df.filter (fun r => r.target_address = some a)) := by
  unfold volGet total_volume volume_from volume_to
  by_cases hf : (df.filter (fun r => r.address = some a)).isEmpty = true <;>
    by_cases ht : (df.filter (fun r => r.target_address = some a)).isEmpty = true
  · rw [List.isEmpty_iff] at hf ht
    simp [hf, ht, sumUsd_nil]
  · rw [List.isEmpty_iff] at hf
    simp [hf, ht, sumUsd_nil]
  · rw [List.isEmpty_iff] at ht
    simp [hf, ht, sumUsd_nil]
  · simp [hf, ht]

/-- C1: for every address `A` appearing as `address` or as `target_address`
in a retained row, the aggregate volume computed by `plot_trader_bubblemap`
for `A` equals the sum of `total_usd_traded` over retained rows where `A`
is the `address` plus the sum over retained rows where `A` is the
`target_address`. -/
theorem C1_volume_aggregation (rows : List Row) (A : String)
    (_h : ∃ r ∈ dropna rows, r.address = some A ∨ r.target_address = some A) :
    volGet (dropna rows) A =
      sumUsd ((dropna rows).filter (fun r => r.address = some A)) +
      sumUsd ((dropna rows).filter (fun r => r.target_address = some A)) :=
  volGet_eq_sums (dropna rows) A

/-- C1 witness: the worked example evaluated at address 0xB. -/
theorem C1_volume_aggregation_witness :
    (∃ r ∈ dropna exRows, r.address = some "0xB" ∨ r.target_address = some "0xB") ∧
    volGet (dropna exRows) "0xB" =
      sumUsd ((dropna exRows).filter (fun r => r.address = some "0xB")) +
      sumUsd ((dropna exRows).filter (fun r => r.target_address = some "0xB")) :=
  ⟨by decide, C1_volume_aggregation exRows "0xB" (by decide)⟩

/-- C6: an edge weight is the comma-stripped string-to-float parse of the
`total_usd_traded` cell; `"1,234.5"` parses to `1234.5`, and a non-numeric
cell such as `"N/A"` falls back to weight 1 without raising. -/
theorem C6_weight_parse :
    (∀ s : String, parseWeight (.str s) = (pyFloat? (stripCommas s)).getD 1) ∧
    (∀ q : ℚ, parseWeight (.num q) = q) ∧
    parseWeight (.str "1,234.5") = 1234.5 ∧
    parseWeight (.str "N/A") = 1 := by
  refine ⟨fun _ => rfl, fun _ => rfl, ?_, ?_⟩
  · have h : pyFloatParts? (stripCommas "1,234.5") =
        some ⟨false, 1234, 5, 1, false, 0⟩ := by decide
    simp [parseWeight, pyFloat?, h, FloatParts.value]
    norm_num
  · have h : pyFloatParts? (stripCommas "N/A") = none := by decide
    simp [parseWeight, pyFloat?, h]

/-- C8: the returned path is `os.path.join(base_dir, output_html)` when a
base directory is given and `output_html` alone when it is `None`, with
default filename `bubblemap.html`. -/
theorem C8_output_path :
    (∀ rows out bd, (plot_trader_bubblemap rows out bd).output_path =
      resolveOutputPath out bd) ∧
    (∀ out, resolveOutputPath out none = out) ∧
    (∀ out d, resolveOutputPath out (some d) = pathJoin d out) ∧
    defaultOutputHtml = "bubblemap.html" := by
  refine ⟨fun _ _ _ => rfl, fun _ => rfl, fun out d => ?_, rfl⟩
  show (if d.isEmpty then out else pathJoin d out) = pathJoin d out
  by_cases hd : d.isEmpty = true
  · rw [if_pos hd, (String.isEmpty_iff d).mp hd]
    unfold pathJoin
    by_cases hs : out.startsWith "/" = true
    · rw [if_pos hs]
    · rw [if_neg hs, if_pos (by simp)]
      exact (String.empty_append out).symm
  · rw [if_neg hd]

/-- C10: `get_evm_traders_and_connections` rejects a chain (Python
`ValueError`, modelled as `Except.error`) exactly when its lowercased name
is outside the supported list, and returns a query string without raising
for every supported chain. -/
theorem C10_chain_guard :
    (∀ chain ca sd ed mn mx mad lim,
      (∃ e, get_evm_traders_and_connections chain ca sd ed mn mx mad lim =
        .error e) ↔ pyLower chain ∉ valid_chains) ∧
    (∀ chain ∈ valid_chains, ∀ ca sd ed mn mx mad lim,
      ∃ q, get_evm_traders_and_connections chain ca sd ed mn mx mad lim =
        .ok q) := by
  constructor
  · intro chain ca sd ed mn mx mad lim
    unfold get_evm_traders_and_connections
    by_cases h : pyLower chain ∉ valid_chains
    · simp [h]
    · simp [h]
  · intro chain hchain ca sd ed mn mx mad lim
    have h : pyLower chain ∈ valid_chains := by
      fin_cases hchain <;> decide
    unfold get_evm_traders_and_connections
    simp [h]

/-- C10 witness: the chain "ethereum" is accepted. -/
theorem C10_chain_guard_witness :
    "ethereum" ∈ valid_chains ∧
    ∃ q, get_evm_traders_and_connections "ethereum" "0xToken" "2024-01-01"
      "2024-01-31" 1 100000000 3 200 = .ok q :=
  ⟨by decide, C10_chain_guard.2 "ethereum" (by decide) "0xToken" "2024-01-01"
    "2024-01-31" 1 100000000 3 200⟩

/-- C4 counterexample: a frame with one node row (null `target_address`)
and zero edge rows yields a graph with NO nodes at all — the
missing-`target_address` filter drops node rows — contradicting "one node
per node-row address". -/
theorem C4_counterexample :
    (∀ r ∈ nodeOnlyRows, r.type = "node" ∧ r.target_address = none) ∧
    (∃ r ∈ nodeOnlyRows, r.address = some "0xA") ∧
    (plot_trader_bubblemap nodeOnlyRows).graph.nodes = [] ∧
    "0xA" ∉ (plot_trader_bubblemap nodeOnlyRows).graph.nodes := by decide

/-- C4 (amended): for a frame holding only node rows (null
`target_address`) and zero edge rows, every row is dropped by the
missing-address filter, so the graph has no nodes and no edges; the
pipeline still completes and returns the resolved output path. -/
theorem C4_node_rows_dropped (rows : List Row) (out : String)
    (bd : Option String) (h : ∀ r ∈ rows, r.target_address = none) :
    (plot_trader_bubblemap rows out bd).graph.nodes = [] ∧
    (plot_trader_bubblemap rows out bd).graph.edges = [] ∧
    (plot_trader_bubblemap rows out bd).output_path =
      resolveOutputPath out bd := by
  have hdf : dropna rows = [] := by
    rw [dropna, List.filter_eq_nil_iff]
    intro r hr
    simp [h r hr]
  refine ⟨?_, ?_, rfl⟩ <;>
    · show _ = _
      rw [show (plot_trader_bubblemap rows out bd).graph =
        buildGraph (dropna rows) from rfl, hdf]
      rfl

/-- C4 witness for the amended statement. -/
theorem C4_node_rows_dropped_witness :
    (∀ r ∈ nodeOnlyRows, r.target_address = none) ∧
    ((plot_trader_bubblemap nodeOnlyRows defaultOutputHtml none).graph.nodes = [] ∧
     (plot_trader_bubblemap nodeOnlyRows defaultOutputHtml none).graph.edges = [] ∧
     (plot_trader_bubblemap nodeOnlyRows defaultOutputHtml none).output_path =
       resolveOutputPath defaultOutputHtml none) :=
  ⟨by decide, C4_node_rows_dropped nodeOnlyRows defaultOutputHtml none (by decide)⟩

theorem mem_uniqueFirstAux {α : Type} [DecidableEq α] (seen l : List α)
    (x : α) : x ∈ uniqueFirstAux seen l ↔ x ∈ l ∧ x ∉ seen := by
  induction l generalizing seen with
  | nil => simp [uniqueFirstAux]
  | cons a t ih =>
    by_cases ha : a ∈ seen
    · rw [uniqueFirstAux, if_pos ha, ih, List.mem_cons]
      constructor
      · rintro ⟨hx, hs⟩
        exact ⟨Or.inr hx, hs⟩
      · rintro ⟨hx | hx, hs⟩
        · exact absurd (hx ▸ ha) hs
        · exact ⟨hx, hs⟩
    · rw [uniqueFirstAux, if_neg ha, List.mem_cons, ih, List.mem_cons,
        List.mem_cons]
      constructor
      · rintro (rfl | ⟨hx, hs⟩)
        · exact ⟨Or.inl rfl, ha⟩
        · exact ⟨Or.inr hx, fun hc => hs (Or.inr hc)⟩
      · rintro ⟨rfl | hx, hs⟩
        · exact Or.inl rfl
        · by_cases hxa : x = a
          · exact Or.inl hxa
          · exact Or.inr ⟨hx, fun hc => hc.elim hxa hs⟩

theorem mem_uniqueFirst {α : Type} [DecidableEq α] (l : List α) (x : α) :
    x ∈ uniqueFirst l ↔ x ∈ l := by
  simp [uniqueFirst, mem_uniqueFirstAux]

/-- A string is a graph-node candidate exactly when some row mentions it in
either address column. -/
theorem mem_nodesOf (df : List Row) (x : String) :
    x ∈ nodesOf df ↔
      ∃ r ∈ df, r.address = some x ∨ r.target_address = some x := by
  rw [nodesOf, List.mem_filterMap]
  constructor
  · rintro ⟨a, ha, rfl⟩
    rw [mem_uniqueFirst, List.mem_flatMap] at ha
    obtain ⟨r, hr, hmem⟩ := ha
    rcases List.mem_cons.mp hmem with h | h
    · exact ⟨r, hr, Or.inl h.symm⟩
    · exact ⟨r, hr, Or.inr (List.mem_singleton.mp h).symm⟩
  · rintro ⟨r, hr, h | h⟩
    · exact ⟨some x, (mem_uniqueFirst _ _).mpr (List.mem_flatMap.mpr
        ⟨r, hr, by rw [← h]; exact List.mem_cons_self _ _⟩), rfl⟩
    · exact ⟨some x, (mem_uniqueFirst _ _).mpr (List.mem_flatMap.mpr
        ⟨r, hr, by rw [← h]; simp⟩), rfl⟩

theorem addNode_edges (g : Graph) (a : String) :
    (addNode g a).edges = g.edges := by
  unfold addNode
  split <;> rfl

theorem addNode_nodes_mem (g : Graph) (a x : String) :
    x ∈ (addNode g a).nodes ↔ x ∈ g.nodes ∨ x = a := by
  unfold addNode
  by_cases h : a ∈ g.nodes
  · rw [if_pos h]
    constructor
    · exact Or.inl
    · rintro (hx | rfl)
      · exact hx
      · exact h
  · rw [if_neg h]
    simp [List.mem_append]

theorem foldl_addNode_edges (l : List String) (g : Graph) :
    (l.foldl addNode g).edges = g.edges := by
  induction l generalizing g with
  | nil => rfl
  | cons a t ih => rw [List.foldl_cons, ih, addNode_edges]

theorem foldl_addNode_nodes_mem (l : List String) (g : Graph) (x : String) :
    x ∈ (l.foldl addNode g).nodes ↔ x ∈ g.nodes ∨ x ∈ l := by
  induction l generalizing g with
  | nil => simp
  | cons a t ih =>
    rw [List.foldl_cons, ih, addNode_nodes_mem, List.mem_cons]
    tauto

theorem addEdge_edges (g : Graph) (u v : String) (w : ℚ) :
    (addEdge g u v w).edges = setWeight g.edges u v w := by
  show setWeight (addNode (addNode g u) v).edges u v w = _
  rw [addNode_edges, addNode_edges]

theorem addEdge_nodes_mem (g : Graph) (u v : String) (w : ℚ) (x : String) :
    x ∈ (addEdge g u v w).nodes ↔ x ∈ g.nodes ∨ x = u ∨ x = v := by
  show x ∈ (addNode (addNode g u) v).nodes ↔ _
  rw [addNode_nodes_mem, addNode_nodes_mem]
  tauto

/-- Every node present after the edge loop was in the base graph or is
mentioned by some processed row. -/
theorem foldl_addRowEdge_nodes_sub (t : List Row) (g : Graph) (x : String)
    (hx : x ∈ (t.foldl addRowEdge g).nodes) :
    x ∈ g.nodes ∨ ∃ r ∈ t, r.address = some x ∨ r.target_address = some x := by
  induction t generalizing g with
  | nil => exact Or.inl hx
  | cons r t ih =>
    rw [List.foldl_cons] at hx
    rcases ih _ hx with h | ⟨r', hr', h'⟩
    · unfold addRowEdge at h
      rcases hA : r.address with _ | a <;> rcases hB : r.target_address with _ | b <;>
        rw [hA, hB] at h
      · exact Or.inl h
      · exact Or.inl h
      · exact Or.inl h
      · rcases (addEdge_nodes_mem _ _ _ _ _).mp h with hg | rfl | rfl
        · exact Or.inl hg
        · exact Or.inr ⟨r, List.mem_cons_self _ _, Or.inl hA⟩
        · exact Or.inr ⟨r, List.mem_cons_self _ _, Or.inr hB⟩
    · exact Or.inr ⟨r', List.mem_cons_of_mem _ hr', h'⟩

/-- The edge loop never removes a node. -/
theorem foldl_addRowEdge_nodes_mono (t : List Row) (g : Graph) (x : String)
    (hx : x ∈ g.nodes) : x ∈ (t.foldl addRowEdge g).nodes := by
  induction t generalizing g with
  | nil => exact hx
  | cons r t ih =>
    rw [List.foldl_cons]
    refine ih _ ?_
    unfold addRowEdge
    rcases hA : r.address with _ | a <;> rcases hB : r.target_address with _ | b
    · exact hx
    · exact hx
    · exact hx
    · exact (addEdge_nodes_mem _ _ _ _ _).mpr (Or.inl hx)

/-- Membership in the built graph's node list coincides with being
mentioned by a row of the frame. -/
theorem mem_buildGraph_nodes (df : List Row) (x : String) :
    x ∈ (buildGraph df).nodes ↔
      ∃ r ∈ df, r.address = some x ∨ r.target_address = some x := by
  constructor
  · intro hx
    rcases foldl_addRowEdge_nodes_sub df _ x hx with h | h
    · rcases (foldl_addNode_nodes_mem _ _ _).mp h with h' | h'
      · cases h'
      · exact (mem_nodesOf df x).mp h'
    · exact h
  · intro h
    exact foldl_addRowEdge_nodes_mono df _ x
      ((foldl_addNode_nodes_mem _ _ _).mpr (Or.inr ((mem_nodesOf df x).mpr h)))

theorem volume_from_eq_some (df : List Row) (a : String)
    (hne : ¬(df.filter (fun r => r.address = some a)).isEmpty = true) :
    volume_from df a =
      some (sumUsd (df.filter (fun r => r.address = some a))) :=
  if_neg hne

theorem volume_to_eq_some (df : List Row) (a : String)
    (hne : ¬(df.filter (fun r => r.target_address = some a)).isEmpty = true) :
    volume_to df a =
      some (sumUsd (df.filter (fun r => r.target_address = some a))) :=
  if_neg hne

theorem total_volume_isSome (df : List Row) (a : String)
    (h : ∃ r ∈ df, r.address = some a ∨ r.target_address = some a) :
    (total_volume df a).isSome := by
  obtain ⟨r, hr, hcase⟩ := h
  rcases hcase with h1 | h1
  · have hne : ¬(df.filter (fun r => r.address = some a)).isEmpty = true := by
      rw [List.isEmpty_iff]
      intro hnil
      have hm : r ∈ df.filter (fun r => r.address = some a) := by
        rw [List.mem_filter]
        exact ⟨hr, decide_eq_true h1⟩
      rw [hnil] at hm
      cases hm
    unfold total_volume
    rw [volume_from_eq_some df a hne]
    rfl
  · have hne : ¬(df.filter (fun r => r.target_address = some a)).isEmpty = true := by
      rw [List.isEmpty_iff]
      intro hnil
      have hm : r ∈ df.filter (fun r => r.target_address = some a) := by
        rw [List.mem_filter]
        exact ⟨hr, decide_eq_true h1⟩
      rw [hnil] at hm
      cases hm
    unfold total_volume
    rw [volume_to_eq_some df a hne]
    cases volume_from df a <;> rfl

/-- C9: every node of the built graph has an entry in the address-to-volume
dictionary (the `.get(node, 0)` default is never exercised), and the
empty-volumes fallback branch runs exactly when the graph has no nodes. -/
theorem C9_volume_keys (rows : List Row) :
    (∀ n ∈ (plot_trader_bubblemap rows).graph.nodes,
      (total_volume (dropna rows) n).isSome) ∧
    ((volumesOf (dropna rows)).isEmpty = true ↔
      (buildGraph (dropna rows)).nodes = []) := by
  constructor
  · intro n hn
    replace hn : n ∈ (buildGraph (dropna rows)).nodes := hn
    exact total_volume_isSome _ _ ((mem_buildGraph_nodes _ _).mp hn)
  · rw [volumesOf, List.isEmpty_iff, List.map_eq_nil_iff]

/-- C9 witness at the worked example, node 0xA. -/
theorem C9_volume_keys_witness :
    "0xA" ∈ (plot_trader_bubblemap exRows).graph.nodes ∧
    (total_volume (dropna exRows) "0xA").isSome :=
  ⟨by decide, (C9_volume_keys exRows).1 "0xA" (by decide)⟩

theorem foldl_min_le_init (l : List ℚ) (a : ℚ) : l.foldl min a ≤ a := by
  induction l generalizing a with
  | nil => exact le_refl a
  | cons b t ih => exact le_trans (ih (min a b)) (min_le_left a b)

theorem foldl_min_le_mem (l : List ℚ) (a x : ℚ) (hx : x ∈ l) :
    l.foldl min a ≤ x := by
  induction l generalizing a with
  | nil => cases hx
  | cons b t ih =>
    rcases List.mem_cons.mp hx with rfl | hx'
    · exact le_trans (foldl_min_le_init t (min a x)) (min_le_right a x)
    · exact ih (min a b) hx'

/-- Python `min` over a nonempty list bounds every element from below. -/
theorem listMin_le (l : List ℚ) (x : ℚ) (hx : x ∈ l) : listMin l ≤ x := by
  cases l with
  | nil => cases hx
  | cons v vs =>
    rcases List.mem_cons.mp hx with rfl | hx'
    · exact foldl_min_le_init vs x
    · exact foldl_min_le_mem vs v x hx'

theorem init_le_foldl_max (l : List ℚ) (a : ℚ) : a ≤ l.foldl max a := by
  induction l generalizing a with
  | nil => exact le_refl a
  | cons b t ih => exact le_trans (le_max_left a b) (ih (max a b))

theorem mem_le_foldl_max (l : List ℚ) (a x : ℚ) (hx : x ∈ l) :
    x ≤ l.foldl max a := by
  induction l generalizing a with
  | nil => cases hx
  | cons b t ih =>
    rcases List.mem_cons.mp hx with rfl | hx'
    · exact le_trans (le_max_right a x) (init_le_foldl_max t (max a x))
    · exact ih (max a b) hx'

/-- Python `max` over a nonempty list bounds every element from above. -/
theorem le_listMax (l : List ℚ) (x : ℚ) (hx : x ∈ l) : x ≤ listMax l := by
  cases l with
  | nil => cases hx
  | cons v vs =>
    rcases List.mem_cons.mp hx with rfl | hx'
    · exact init_le_foldl_max vs x
    · exact mem_le_foldl_max vs v x hx'

/-- The normalization denominator is positive whenever any volume exists. -/
theorem volumeRange_pos (df : List Row) (h : volumesOf df ≠ []) :
    0 < volumeRange df := by
  unfold volumeRange
  split_ifs with hne
  · obtain ⟨x, hx⟩ := List.exists_mem_of_ne_nil _ h
    have h1 := listMin_le _ x hx
    have h2 := le_listMax _ x hx
    exact sub_pos.mpr (lt_of_le_of_ne (le_trans h1 h2) (Ne.symm hne))
  · exact one_pos

/-- The code's range expression agrees with the spec's phrasing of it. -/
theorem volumeRange_eq (df : List Row) :
    volumeRange df =
      if listMax (volumesOf df) = listMin (volumesOf df) then 1
      else listMax (volumesOf df) - listMin (volumesOf df) := by
  unfold volumeRange
  by_cases h : listMax (volumesOf df) = listMin (volumesOf df) <;> simp [h]

/-- The size expression written with its literal constants. -/
theorem nodeSize_eq (df : List Row) (n : String) :
    nodeSize df n = 10 + 40 *
      (volGet df n - listMin (volumesOf df)) / volumeRange df := by
  unfold nodeSize min_size max_size
  norm_num

theorem volGet_mem_volumesOf (df : List Row) (n : String)
    (hn : n ∈ (buildGraph df).nodes) : volGet df n ∈ volumesOf df :=
  List.mem_map_of_mem _ hn

theorem nodeSize_bounds (df : List Row) (n : String)
    (hn : n ∈ (buildGraph df).nodes) :
    10 ≤ nodeSize df n ∧ nodeSize df n ≤ 50 := by
  have hv := volGet_mem_volumesOf df n hn
  have hne : volumesOf df ≠ [] := List.ne_nil_of_mem hv
  have hr := volumeRange_pos df hne
  have h1 := listMin_le _ _ hv
  have h2 := le_listMax _ _ hv
  constructor
  · rw [nodeSize_eq]
    have hnn : 0 ≤ 40 * (volGet df n - listMin (volumesOf df)) /
        volumeRange df := by
      apply div_nonneg _ (le_of_lt hr)
      nlinarith
    linarith
  · rw [nodeSize_eq]
    have hle : volGet df n - listMin (volumesOf df) ≤ volumeRange df := by
      unfold volumeRange
      split_ifs with hne'
      · linarith
      · push_neg at hne'
        have h3 : volGet df n ≤ listMin (volumesOf df) := hne' ▸ h2
        linarith
    have h4 : 40 * (volGet df n - listMin (volumesOf df)) /
        volumeRange df ≤ 40 := by
      rw [div_le_iff hr]
      nlinarith
    linarith

theorem nodeSize_mono (df : List Row) (m n : String)
    (hm : m ∈ (buildGraph df).nodes)
    (hle : volGet df m ≤ volGet df n) :
    nodeSize df m ≤ nodeSize df n := by
  have hne : volumesOf df ≠ [] :=
    List.ne_nil_of_mem (volGet_mem_volumesOf df m hm)
  have hr := volumeRange_pos df hne
  rw [nodeSize_eq, nodeSize_eq]
  have h40 : 40 * (volGet df m - listMin (volumesOf df)) ≤
      40 * (volGet df n - listMin (volumesOf df)) := by linarith
  have := (div_le_div_right hr).mpr h40
  linarith

theorem nodeSize_of_min (df : List Row) (n : String)
    (h : volGet df n = listMin (volumesOf df)) : nodeSize df n = 10 := by
  rw [nodeSize_eq, h]
  simp

theorem nodeSize_of_max (df : List Row)
    (hne : listMax (volumesOf df) ≠ listMin (volumesOf df)) (n : String)
    (h : volGet df n = listMax (volumesOf df)) : nodeSize df n = 50 := by
  rw [nodeSize_eq, h]
  unfold volumeRange
  rw [if_pos hne, mul_div_assoc, div_self (sub_ne_zero.mpr hne)]
  norm_num

theorem sizesOf_of_ne_nil (df : List Row)
    (h : (buildGraph df).nodes ≠ []) :
    sizesOf df = (buildGraph df).nodes.map (nodeSize df) := by
  unfold sizesOf
  rw [if_neg]
  simp [volumesOf, List.isEmpty_iff, List.map_eq_nil_iff, h]

/-- C2: node sizes follow the linear scale `10 + 40 * (v - min) / range`
with `range = max - min`, or 1 when all volumes coincide; every size lies
in [10, 50]; size is monotone in aggregate volume; minimum-volume nodes get
size 10; maximum-volume nodes get size 50 when volumes are not all equal;
and every node gets size 10 when all volumes are equal. -/
theorem C2_size_scaling (rows : List Row)
    (h : (buildGraph (dropna rows)).nodes ≠ []) :
    ((plot_trader_bubblemap rows).sizes = (buildGraph (dropna rows)).nodes.map
      (fun n => 10 + 40 *
        (volGet (dropna rows) n - listMin (volumesOf (dropna rows))) /
        (if listMax (volumesOf (dropna rows)) = listMin (volumesOf (dropna rows))
         then 1
         else listMax (volumesOf (dropna rows)) -
           listMin (volumesOf (dropna rows))))) ∧
    (∀ s ∈ (plot_trader_bubblemap rows).sizes, 10 ≤ s ∧ s ≤ 50) ∧
    (∀ m ∈ (buildGraph (dropna rows)).nodes,
      ∀ n ∈ (buildGraph (dropna rows)).nodes,
      volGet (dropna rows) m ≤ volGet (dropna rows) n →
        nodeSize (dropna rows) m ≤ nodeSize (dropna rows) n) ∧
    (∀ n ∈ (buildGraph (dropna rows)).nodes,
      volGet (dropna rows) n = listMin (volumesOf (dropna rows)) →
        nodeSize (dropna rows) n = 10) ∧
    (listMax (volumesOf (dropna rows)) ≠ listMin (volumesOf (dropna rows)) →
      ∀ n ∈ (buildGraph (dropna rows)).nodes,
        volGet (dropna rows) n = listMax (volumesOf (dropna rows)) →
          nodeSize (dropna rows) n = 50) ∧
    (listMax (volumesOf (dropna rows)) = listMin (volumesOf (dropna rows)) →
      ∀ s ∈ (plot_trader_bubblemap rows).sizes, s = 10) := by
  have hsz : (plot_trader_bubblemap rows).sizes =
      (buildGraph (dropna rows)).nodes.map (nodeSize (dropna rows)) :=
    sizesOf_of_ne_nil (dropna rows) h
  refine ⟨?_, ?_, ?_, ?_, ?_, ?_⟩
  · rw [hsz]
    refine List.map_congr_left fun n _ => ?_
    rw [nodeSize_eq, volumeRange_eq]
  · intro s hs
    rw [hsz, List.mem_map] at hs
    obtain ⟨n, hn, rfl⟩ := hs
    exact nodeSize_bounds (dropna rows) n hn
  · intro m hm n _ hle
    exact nodeSize_mono (dropna rows) m n hm hle
  · intro n _ hv
    exact nodeSize_of_min (dropna rows) n hv
  · intro hne n _ hv
    exact nodeSize_of_max (dropna rows) hne n hv
  · intro heq s hs
    rw [hsz, List.mem_map] at hs
    obtain ⟨n, hn, rfl⟩ := hs
    have hv := volGet_mem_volumesOf (dropna rows) n hn
    have h1 := listMin_le _ _ hv
    have h2 := le_listMax _ _ hv
    exact nodeSize_of_min (dropna rows) n (le_antisymm (heq ▸ h2) h1)

/-- C2 witness at the worked example. -/
theorem C2_size_scaling_witness :
    (buildGraph (dropna exRows)).nodes ≠ [] ∧
    (((plot_trader_bubblemap exRows).sizes = (buildGraph (dropna exRows)).nodes.map
      (fun n => 10 + 40 *
        (volGet (dropna exRows) n - listMin (volumesOf (dropna exRows))) /
        (if listMax (volumesOf (dropna exRows)) = listMin (volumesOf (dropna exRows))
         then 1
         else listMax (volumesOf (dropna exRows)) -
           listMin (volumesOf (dropna exRows))))) ∧
    (∀ s ∈ (plot_trader_bubblemap exRows).sizes, 10 ≤ s ∧ s ≤ 50) ∧
    (∀ m ∈ (buildGraph (dropna exRows)).nodes,
      ∀ n ∈ (buildGraph (dropna exRows)).nodes,
      volGet (dropna exRows) m ≤ volGet (dropna exRows) n →
        nodeSize (dropna exRows) m ≤ nodeSize (dropna exRows) n) ∧
    (∀ n ∈ (buildGraph (dropna exRows)).nodes,
      volGet (dropna exRows) n = listMin (volumesOf (dropna exRows)) →
        nodeSize (dropna exRows) n = 10) ∧
    (listMax (volumesOf (dropna exRows)) ≠ listMin (volumesOf (dropna exRows)) →
      ∀ n ∈ (buildGraph (dropna exRows)).nodes,
        volGet (dropna exRows) n = listMax (volumesOf (dropna exRows)) →
          nodeSize (dropna exRows) n = 50) ∧
    (listMax (volumesOf (dropna exRows)) = listMin (volumesOf (dropna exRows)) →
      ∀ s ∈ (plot_trader_bubblemap exRows).sizes, s = 10)) :=
  ⟨by decide, C2_size_scaling exRows (by decide)⟩

/-- The empty-volumes check fails exactly for an empty node list. -/
theorem volumesOf_isEmpty_iff (df : List Row) :
    (volumesOf df).isEmpty = true ↔ (buildGraph df).nodes = [] := by
  rw [volumesOf, List.isEmpty_iff, List.map_eq_nil_iff]

/-- C3: a node is colored "#FF4500" exactly when its aggregate volume is
greater than or equal to the median of all node volumes, and "#1E90FF"
otherwise; in particular a node whose volume equals the median gets the
high color (ties resolve via >=). -/
theorem C3_color_threshold (rows : List Row) :
    ((plot_trader_bubblemap rows).colors =
      (buildGraph (dropna rows)).nodes.map
        (fun n => if volGet (dropna rows) n ≥ median (volumesOf (dropna rows))
          then "#FF4500" else "#1E90FF")) ∧
    (∀ n ∈ (buildGraph (dropna rows)).nodes,
      volGet (dropna rows) n = median (volumesOf (dropna rows)) →
        nodeColor (dropna rows) n = "#FF4500") := by
  constructor
  · show colorsOf (dropna rows) = _
    unfold colorsOf
    by_cases hemp : (volumesOf (dropna rows)).isEmpty = true
    · rw [if_pos hemp, (volumesOf_isEmpty_iff (dropna rows)).mp hemp]
      rfl
    · rw [if_neg hemp]
      refine List.map_congr_left fun n _ => ?_
      unfold nodeColor thresholdOf high_color low_color
      rfl
  · intro n _ hv
    unfold nodeColor thresholdOf
    rw [if_pos (le_of_eq hv.symm)]
    rfl

/-- C3 witness: node 0xC of the worked example sits exactly at the median
and receives the high color. -/
theorem C3_color_threshold_witness :
    "0xC" ∈ (buildGraph (dropna exRows)).nodes ∧
    volGet (dropna exRows) "0xC" = median (volumesOf (dropna exRows)) ∧
    nodeColor (dropna exRows) "0xC" = "#FF4500" := by
  have hnodes : (buildGraph (dropna exRows)).nodes = ["0xA", "0xB", "0xC"] := by
    decide
  have hmem : "0xC" ∈ (buildGraph (dropna exRows)).nodes := by decide
  have hvols : volumesOf (dropna exRows) = [100, 400, 300] := by
    rw [volumesOf, hnodes]
    simp [volGet, total_volume, volume_from, volume_to, dropna, exRows,
      sumUsd, Val.asNum]
    norm_num
  have hmedian : volGet (dropna exRows) "0xC" =
      median (volumesOf (dropna exRows)) := by
    rw [hvols]
    simp [volGet, total_volume, volume_from, volume_to, dropna, exRows,
      sumUsd, Val.asNum, median, sortAsc, insertSorted]
    norm_num
    rw [if_neg (List.cons_ne_nil _ _)]
  exact ⟨hmem, hmedian,
    (C3_color_threshold exRows).2 "0xC" hmem hmedian⟩

theorem sameEdge_iff (a b u v : String) :
    sameEdge a b u v = true ↔ (a = u ∧ b = v) ∨ (a = v ∧ b = u) := by
  simp [sameEdge]

theorem sameEdge_symm_pair (a b u v : String)
    (h : sameEdge a b u v = true) : sameEdge u v a b = true := by
  rw [sameEdge_iff] at h ⊢
  tauto

theorem sameEdge_comp (x y a b u v : String)
    (h1 : sameEdge x y a b = true) (h2 : sameEdge a b u v = true) :
    sameEdge x y u v = true := by
  rw [sameEdge_iff] at h1 h2 ⊢
  rcases h1 with ⟨rfl, rfl⟩ | ⟨rfl, rfl⟩ <;> tauto

/-- Updating an edge of a different unordered pair leaves the stored edges
of a pair untouched. -/
theorem setWeight_filter_nonmatch (es : List (String × String × ℚ))
    (a b u v : String) (w : ℚ) (h : ¬sameEdge a b u v = true) :
    (setWeight es a b w).filter (fun e => sameEdge e.1 e.2.1 u v) =
      es.filter (fun e => sameEdge e.1 e.2.1 u v) := by
  induction es with
  | nil => simp [setWeight, h]
  | cons e t ih =>
    show List.filter _ (if sameEdge e.1 e.2.1 a b then (e.1, e.2.1, w) :: t
      else e :: setWeight t a b w) = _
    by_cases he : sameEdge e.1 e.2.1 a b = true
    · rw [if_pos he]
      have hm : ¬sameEdge e.1 e.2.1 u v = true := fun hm =>
        h (sameEdge_comp a b e.1 e.2.1 u v (sameEdge_symm_pair _ _ _ _ he) hm)
      rw [List.filter_cons_of_neg (by simpa using hm),
        List.filter_cons_of_neg (by simpa using hm)]
    · rw [if_neg he]
      by_cases hm : sameEdge e.1 e.2.1 u v = true
      · rw [List.filter_cons_of_pos (by simpa using hm),
          List.filter_cons_of_pos (by simpa using hm), ih]
      · rw [List.filter_cons_of_neg (by simpa using hm),
          List.filter_cons_of_neg (by simpa using hm), ih]

/-- Updating an edge of the pair leaves exactly one stored edge of the
pair, carrying the new weight. -/
theorem setWeight_filter_match (es : List (String × String × ℚ))
    (a b u v : String) (w : ℚ) (h : sameEdge a b u v = true)
    (hlen : (es.filter (fun e => sameEdge e.1 e.2.1 u v)).length ≤ 1) :
    ∃ x y, sameEdge x y u v = true ∧
      (setWeight es a b w).filter (fun e => sameEdge e.1 e.2.1 u v) =
        [(x, y, w)] := by
  induction es with
  | nil => exact ⟨a, b, h, by simp [setWeight, h]⟩
  | cons e t ih =>
    show ∃ x y, _ ∧ List.filter _ (if sameEdge e.1 e.2.1 a b then
      (e.1, e.2.1, w) :: t else e :: setWeight t a b w) = _
    by_cases he : sameEdge e.1 e.2.1 a b = true
    · rw [if_pos he]
      have hm : sameEdge e.1 e.2.1 u v = true :=
        sameEdge_comp e.1 e.2.1 a b u v he h
      have hfc : (e :: t).filter (fun e => sameEdge e.1 e.2.1 u v) =
          e :: t.filter (fun e => sameEdge e.1 e.2.1 u v) :=
        List.filter_cons_of_pos (by simpa using hm)
      rw [hfc, List.length_cons] at hlen
      have ht : t.filter (fun e => sameEdge e.1 e.2.1 u v) = [] :=
        List.length_eq_zero.mp (by omega)
      refine ⟨e.1, e.2.1, hm, ?_⟩
      rw [List.filter_cons_of_pos (by simpa using hm), ht]
    · rw [if_neg he]
      by_cases hm : sameEdge e.1 e.2.1 u v = true
      · exact absurd (sameEdge_comp e.1 e.2.1 u v a b hm
          (sameEdge_symm_pair _ _ _ _ h)) he
      · have hfc : (e :: t).filter (fun e => sameEdge e.1 e.2.1 u v) =
            t.filter (fun e => sameEdge e.1 e.2.1 u v) :=
          List.filter_cons_of_neg (by simpa using hm)
        rw [hfc] at hlen
        obtain ⟨x, y, hxy, hres⟩ := ih hlen
        exact ⟨x, y, hxy, by
          rw [List.filter_cons_of_neg (by simpa using hm), hres]⟩

/-- Invariant of the edge loop: starting from at most one stored edge of a
pair, the loop leaves the pair's stored edges unchanged when no processed
row carries the pair, and leaves exactly one edge weighted by the last
carrying row otherwise. -/
theorem foldl_addRowEdge_match (df : List Row) (g : Graph) (u v : String)
    (hg : (matchEdges g u v).length ≤ 1) :
    ((df.filter (fun r => carriesPair r u v)) = [] →
      matchEdges (df.foldl addRowEdge g) u v = matchEdges g u v) ∧
    (∀ r0, (df.filter (fun r => carriesPair r u v)).getLast? = some r0 →
      ∃ x y, sameEdge x y u v = true ∧
        matchEdges (df.foldl addRowEdge g) u v =
          [(x, y, parseWeight r0.total_usd_traded)]) := by
  induction df generalizing g with
  | nil => exact ⟨fun _ => rfl, fun r0 h0 => by simp at h0⟩
  | cons r t ih =>
    rw [List.foldl_cons]
    rcases hA : r.address with _ | a
    · have hstep : addRowEdge g r = g := by unfold addRowEdge; rw [hA]
      have hcp : carriesPair r u v = false := by unfold carriesPair; rw [hA]
      rw [hstep, List.filter_cons_of_neg (by simp [hcp])]
      exact ih g hg
    · rcases hB : r.target_address with _ | b
      · have hstep : addRowEdge g r = g := by unfold addRowEdge; rw [hA, hB]
        have hcp : carriesPair r u v = false := by
          unfold carriesPair; rw [hA, hB]
        rw [hstep, List.filter_cons_of_neg (by simp [hcp])]
        exact ih g hg
      · have hstep : addRowEdge g r =
            addEdge g a b (parseWeight r.total_usd_traded) := by
          unfold addRowEdge; rw [hA, hB]
        have hcp : carriesPair r u v = sameEdge a b u v := by
          unfold carriesPair; rw [hA, hB]
        rw [hstep]
        by_cases hs : sameEdge a b u v = true
        · obtain ⟨x, y, hxy, hres⟩ :=
            setWeight_filter_match g.edges a b u v
              (parseWeight r.total_usd_traded) hs hg
          have hm1 : matchEdges (addEdge g a b
              (parseWeight r.total_usd_traded)) u v =
              [(x, y, parseWeight r.total_usd_traded)] := by
            unfold matchEdges
            rw [addEdge_edges]
            exact hres
          have hg' : (matchEdges (addEdge g a b
              (parseWeight r.total_usd_traded)) u v).length ≤ 1 := by
            rw [hm1]
            exact le_refl 1
          obtain ⟨ihe, ihl⟩ := ih _ hg'
          constructor
          · intro hnil
            rw [List.filter_cons_of_pos (by simp [hcp, hs])] at hnil
            exact absurd hnil (List.cons_ne_nil _ _)
          · intro r0 hlast
            rw [List.filter_cons_of_pos (by simp [hcp, hs])] at hlast
            rcases hft : t.filter (fun r => carriesPair r u v) with _ | ⟨r1, t1⟩
            · rw [hft] at hlast
              have hrr : r = r0 := by simpa using hlast
              subst hrr
              exact ⟨x, y, hxy, by rw [ihe hft, hm1]⟩
            · rw [hft, List.getLast?_cons_cons] at hlast
              exact ihl r0 (by rw [hft]; exact hlast)
        · have hm : matchEdges (addEdge g a b
              (parseWeight r.total_usd_traded)) u v = matchEdges g u v := by
            unfold matchEdges
            rw [addEdge_edges]
            exact setWeight_filter_nonmatch g.edges a b u v _ hs
          obtain ⟨ihe, ihl⟩ := ih _ (by rw [hm]; exact hg)
          rw [List.filter_cons_of_neg (by simp [hcp, hs])]
          refine ⟨fun hnil => ?_, fun r0 hlast => ihl r0 hlast⟩
          rw [ihe hnil, hm]

/-- C5: all retained rows carrying the same unordered address pair yield
exactly one stored edge, whose weight is the parsed weight of the last
such row in input order (last write wins, no accumulation). -/
theorem C5_last_write_wins (rows : List Row) (u v : String) (r0 : Row)
    (h : ((dropna rows).filter (fun r => carriesPair r u v)).getLast? =
      some r0) :
    (matchEdges (plot_trader_bubblemap rows).graph u v).length = 1 ∧
    (matchEdges (plot_trader_bubblemap rows).graph u v).map
      (fun e => e.2.2) = [parseWeight r0.total_usd_traded] := by
  have hlen : (matchEdges ((nodesOf (dropna rows)).foldl addNode
      (⟨[], []⟩ : Graph)) u v).length ≤ 1 := by
    unfold matchEdges
    rw [foldl_addNode_edges]
    exact Nat.zero_le 1
  obtain ⟨x, y, hxy, hres⟩ :=
    (foldl_addRowEdge_match (dropna rows) _ u v hlen).2 r0 h
  have hgr : (plot_trader_bubblemap rows).graph =
      (dropna rows).foldl addRowEdge
        ((nodesOf (dropna rows)).foldl addNode ⟨[], []⟩) := rfl
  rw [hgr, hres]
  exact ⟨rfl, rfl⟩

/-- C5 witness: two rows carrying the pair (0xA, 0xB); one edge remains,
weighted by the later row's value. -/
theorem C5_last_write_wins_witness :
    ((dropna dupRows).filter (fun r => carriesPair r "0xA" "0xB")).getLast? =
      some dupRowB ∧
    ((matchEdges (plot_trader_bubblemap dupRows).graph "0xA" "0xB").length = 1 ∧
     (matchEdges (plot_trader_bubblemap dupRows).graph "0xA" "0xB").map
       (fun e => e.2.2) = [parseWeight dupRowB.total_usd_traded]) :=
  ⟨by decide, C5_last_write_wins dupRows "0xA" "0xB" dupRowB (by decide)⟩

/-- C7: a retained row whose `address` equals its `target_address` puts a
self-loop edge on that address into the built graph; nothing filters such
rows. -/
theorem C7_self_loop (rows : List Row) (a : String) (r : Row)
    (hr : r ∈ dropna rows) (ha : r.address = some a)
    (ht : r.target_address = some a) :
    ∃ w, (a, a, w) ∈ (plot_trader_bubblemap rows).graph.edges := by
  have hcp : carriesPair r a a = true := by
    unfold carriesPair
    rw [ha, ht]
    simp [sameEdge]
  have hmem : r ∈ (dropna rows).filter (fun r => carriesPair r a a) := by
    rw [List.mem_filter]
    exact ⟨hr, hcp⟩
  have hne := List.ne_nil_of_mem hmem
  obtain ⟨r0, hr0⟩ := Option.isSome_iff_exists.mp
    (List.getLast?_isSome.mpr hne)
  have hlen : (matchEdges ((nodesOf (dropna rows)).foldl addNode
      (⟨[], []⟩ : Graph)) a a).length ≤ 1 := by
    unfold matchEdges
    rw [foldl_addNode_edges]
    exact Nat.zero_le 1
  obtain ⟨x, y, hxy, hres⟩ :=
    (foldl_addRowEdge_match (dropna rows) _ a a hlen).2 r0 hr0
  have hxa : x = a ∧ y = a := by
    rcases (sameEdge_iff x y a a).mp hxy with ⟨h1, h2⟩ | ⟨h1, h2⟩ <;>
      exact ⟨h1, h2⟩
  obtain ⟨hx1, hy1⟩ := hxa
  refine ⟨parseWeight r0.total_usd_traded, ?_⟩
  have hgr : (plot_trader_bubblemap rows).graph =
      (dropna rows).foldl addRowEdge
        ((nodesOf (dropna rows)).foldl addNode ⟨[], []⟩) := rfl
  rw [hgr]
  have hmem2 : (x, y, parseWeight r0.total_usd_traded) ∈
      matchEdges ((dropna rows).foldl addRowEdge
        ((nodesOf (dropna rows)).foldl addNode ⟨[], []⟩)) a a := by
    rw [hres]
    exact List.mem_singleton_self _
  unfold matchEdges at hmem2
  have hfin := (List.mem_filter.mp hmem2).1
  rw [hx1, hy1] at hfin
  exact hfin

/-- C7 witness: a single self-loop row on 0xA. -/
theorem C7_self_loop_witness :
    selfRow ∈ dropna selfRows ∧ selfRow.address = some "0xA" ∧
    selfRow.target_address = some "0xA" ∧
    ∃ w, ("0xA", "0xA", w) ∈ (plot_trader_bubblemap selfRows).graph.edges :=
  ⟨by decide, by decide, by decide,
    C7_self_loop selfRows "0xA" selfRow (by decide) (by decide) (by decide)⟩

end TopTraders
